import Mathlib

/-!
Verification of the cluster key-routing inspector demos of the
redis-clustor-local-setup repository.

The repository is a set of Python scripts over a Redis Cluster client.
This file shallowly embeds the pure logic of those scripts:

* `get_master_for_slot` — the static slot-to-master table
  (src/verify_hash_tags.py, also inlined in the other scripts);
* `cluster_keyslot` — the key-to-slot computation the scripts obtain
  from the external client (`rc.cluster_keyslot`), modelled from the
  spec (hash-tag extraction plus CRC16 modulo 16384);
* `get_node_for_key` — the topology lookup of
  src/cluster_distribution_demo.py;
* the `EcommerceRedis` methods of src/real_world_example.py
  (`check_rate_limit`, `reserve_stock`, `track_product_view`,
  `add_notification`, `track_event`) as explicit state passing;
* the hash-record store operations (`hset` with a mapping, `hgetall`)
  the demos call on the external client, modelled from the spec;
* the connect-or-return control flow shared by the script entry points.
-/

namespace RedisDemo

/-! ## Static slot-to-master table (src/verify_hash_tags.py lines 17-24) -/

/-- Embeds `get_master_for_slot(slot)` of src/verify_hash_tags.py:
returns the owning master's label and IP for a slot.  The same boundary
tests are inlined in src/cluster_distribution_demo.py lines 81-86,
src/clear_redis.py lines 45-50 and src/category_products_demo.py
lines 163-168. -/
def get_master_for_slot (slot : Nat) : String × String :=
  if slot ≤ 5460 then ("Master 1 (redis-node-1)", "172.28.0.2")
  else if slot ≤ 10922 then ("Master 2 (redis-node-2)", "172.28.0.3")
  else ("Master 3 (redis-node-3)", "172.28.0.4")

/-- Number of integers in the inclusive slot range `[lo, hi]`. -/
def slot_range_size (lo hi : Nat) : Nat := hi + 1 - lo

theorem slot_range_size_eq_card (lo hi : Nat) :
    slot_range_size lo hi = (Finset.Icc lo hi).card := by
  simp [slot_range_size, Nat.card_Icc]

/-! ## Key-to-slot computation

Modelled from the spec: the scripts call `rc.cluster_keyslot(key)` on the
external cluster client; the hashing itself is not code of this
repository.  The spec says a slot is "computed deterministically from a
key by a hashing function external to this scope" and that a hash tag is
"a bracketed substring of a key that alone determines its slot".  We
model the documented Redis Cluster computation: CRC16 (CCITT/XMODEM) of
the key's bytes modulo 16384, hashing only the first non-empty
brace-delimited substring when one exists. -/

/-- One bit step of CRC16-CCITT (polynomial 0x1021), on a 16-bit
accumulator kept as a `Nat` below 2^16. -/
def crc16_shift (c : Nat) : Nat :=
  if c &&& 0x8000 ≠ 0 then ((c <<< 1) ^^^ 0x1021) &&& 0xFFFF
  else (c <<< 1) &&& 0xFFFF

/-- Absorb one byte into the CRC16 accumulator (eight bit steps). -/
def crc16_byte (c b : Nat) : Nat :=
  (List.range 8).foldl (fun acc _ => crc16_shift acc)
    ((c ^^^ ((b &&& 0xFF) <<< 8)) &&& 0xFFFF)

/-- CRC16-CCITT (XMODEM variant, initial value 0) of a byte list. -/
def crc16 (bytes : List Nat) : Nat := bytes.foldl crc16_byte 0

/-- Byte values of a key (the demo keys are ASCII, so code points are
byte values). -/
def key_bytes (cs : List Char) : List Nat := cs.map Char.toNat

/-- The characters strictly after the first `«{»` of the key, if any
(written with character literals below). -/
def after_open : List Char → Option (List Char)
  | [] => none
  | c :: cs => if c = '{' then some cs else after_open cs

/-- The characters strictly before the first `«}»`, if one occurs. -/
def before_close : List Char → Option (List Char)
  | [] => none
  | c :: cs => if c = '}' then some [] else (before_close cs).map (c :: ·)

/-- The hash tag of a key: the substring between the first `«{»` and the
first following `«}»`, provided it is non-empty; otherwise `none` and the
whole key is hashed. -/
def hash_tag (key : List Char) : Option (List Char) :=
  match after_open key with
  | none => none
  | some rest =>
    match before_close rest with
    | none => none
    | some tag => if tag = [] then none else some tag

/-- Modelled from the spec: the external client's `cluster_keyslot`,
i.e. the documented Redis Cluster slot of a key — CRC16 of the hash tag
when the key carries one, of the whole key otherwise, modulo 16384. -/
def cluster_keyslot (key : String) : Nat :=
  match hash_tag key.toList with
  | some tag => crc16 (key_bytes tag) % 16384
  | none => crc16 (key_bytes key.toList) % 16384

/-- The slots obtained by computing a key's slot `n` times in a row, as
the consistency test of src/cluster_distribution_demo.py lines 201-210
does for `n = 3`. -/
def repeated_keyslots (key : String) (n : Nat) : List Nat :=
  (List.range n).map (fun _ => cluster_keyslot key)

/-! ## Topology lookup (src/cluster_distribution_demo.py lines 19-35) -/

/-- One entry of the `rc.cluster_nodes()` dictionary, with the fields
`get_node_for_key` reads: `master` (`None` on a master, the master's id
on a replica), the list of `(start, end)` slot ranges, and the node's
host and port. -/
structure NodeInfo where
  master : Option String
  slots : List (Nat × Nat)
  host : String
  port : Nat

/-- The loop of `get_node_for_key`: walk the nodes in order; at each
master with a non-empty slot list destructure `slots[0]` and return the
node's host and port when `start <= slot <= end`; fall through to the
next node otherwise. -/
def find_master_by_first_range (slot : Nat) : List NodeInfo → Option (String × Nat)
  | [] => none
  | n :: rest =>
    if n.master = none then
      match n.slots with
      | [] => find_master_by_first_range slot rest
      | (s, e) :: _ =>
        if s ≤ slot ∧ slot ≤ e then some (n.host, n.port)
        else find_master_by_first_range slot rest
    else find_master_by_first_range slot rest

/-- Embeds `get_node_for_key(rc, key)` of
src/cluster_distribution_demo.py: compute the key's slot, scan the
cluster-nodes dictionary for a master whose first slot range contains
the slot, and return `(host, port, slot)` — or `(None, None, slot)` when
the loop falls through. -/
def get_node_for_key (key : String) (nodes : List NodeInfo) :
    Option (String × Nat) × Nat :=
  let slot := cluster_keyslot key
  (find_master_by_first_range slot nodes, slot)

/-! ## Script entry points: connect or return
(src/verify_hash_tags.py lines 27-43, src/clear_redis.py lines 18-34,
src/category_products_demo.py lines 19-35) -/

/-- One observable action of a script: a console line or an operation
issued to the cluster. -/
inductive ScriptEvent where
  | consoleLine (s : String)
  | clusterOp (op : String)
deriving DecidableEq

/-- Whether an event is an operation issued to the cluster. -/
def ScriptEvent.isClusterOp : ScriptEvent → Bool
  | ScriptEvent.clusterOp _ => true
  | ScriptEvent.consoleLine _ => false

/-- Number of cluster operations in a trace. -/
def cluster_op_count (tr : List ScriptEvent) : Nat :=
  (tr.filter ScriptEvent.isClusterOp).length

/-- Embeds `main()` of src/verify_hash_tags.py up to the connection
attempt: the `try` block constructs the client; on an exception the
`except` branch prints the failure and `return`s, so the rest of the
function (`body`, which issues every cluster call of the script) runs
only on success.  `conn` is the outcome of the `RedisCluster(...)`
constructor. -/
def verify_hash_tags_main (conn : Except String Unit)
    (body : List ScriptEvent) : List ScriptEvent :=
  ScriptEvent.consoleLine "🔍 VERIFYING HASH TAGS - Where Each Category is Stored" ::
  ScriptEvent.consoleLine "📡 Connecting to Redis Cluster..." ::
  match conn with
  | Except.error e => [ScriptEvent.consoleLine ("❌ Connection failed: " ++ e)]
  | Except.ok _ => ScriptEvent.consoleLine "✅ Connected successfully!" :: body

/-- Embeds `clear_all_keys()` of src/clear_redis.py up to the connection
attempt, with the same try/except-return shape. -/
def clear_all_keys (conn : Except String Unit)
    (body : List ScriptEvent) : List ScriptEvent :=
  ScriptEvent.consoleLine "🗑️  Clearing All Keys from Redis Cluster" ::
  ScriptEvent.consoleLine "📡 Connecting to Redis Cluster..." ::
  match conn with
  | Except.error e => [ScriptEvent.consoleLine ("❌ Connection failed: " ++ e)]
  | Except.ok _ => ScriptEvent.consoleLine "✅ Connected successfully!" :: body

/-- Embeds `main()` of src/category_products_demo.py up to the
connection attempt, with the same try/except-return shape. -/
def category_products_main (conn : Except String Unit)
    (body : List ScriptEvent) : List ScriptEvent :=
  ScriptEvent.consoleLine "🛍️  CATEGORY & PRODUCTS DEMO - Using Hash Tags" ::
  ScriptEvent.consoleLine "📡 Connecting to Redis Cluster..." ::
  match conn with
  | Except.error e => [ScriptEvent.consoleLine ("❌ Connection failed: " ++ e)]
  | Except.ok _ => ScriptEvent.consoleLine "✅ Connected successfully!" :: body

/-! ## EcommerceRedis (src/real_world_example.py)

The class methods touch disjoint keys; each method is embedded as
explicit state passing over just the keys it reads and writes.  Redis
list, counter and hash-field semantics (LPUSH, LTRIM, INCR, EXPIRE,
HGET, HINCRBY, SET NX EX, DELETE) are those documented for the external
store, modelled from the spec's interface list. -/

/-- Modelled from the spec: `LPUSH` prepends the new element. -/
def lpush {α : Type} (v : α) (l : List α) : List α := v :: l

/-- Modelled from the spec: `LTRIM key start stop` keeps the inclusive
index range `[start, stop]` (the scripts only use non-negative
indices). -/
def ltrim {α : Type} (start stop : Nat) (l : List α) : List α :=
  (l.drop start).take (stop + 1 - start)

/-- Embeds `track_product_view(user_id, product_id)` of
src/real_world_example.py lines 108-111 acting on the `views:{user_id}`
list: `lpush` the product id, then `ltrim` to indices 0-49. -/
def track_product_view (views : List String) (product_id : String) :
    List String :=
  ltrim 0 49 (lpush product_id views)

/-- The record serialised by `add_notification` (the fields of its
`json.dumps` call; the timestamp is `datetime.now()`, passed in). -/
structure NotificationMsg where
  ntype : String
  message : String
  timestamp : String
  read : Bool

/-- Embeds `add_notification(user_id, notification_type, message)` of
src/real_world_example.py lines 149-158 acting on the
`notifications:{user_id}` list: build the record with `read = False`,
`lpush` it, then `ltrim` to indices 0-99. -/
def add_notification (queue : List NotificationMsg)
    (notification_type message timestamp : String) : List NotificationMsg :=
  ltrim 0 99 (lpush ⟨notification_type, message, timestamp, false⟩ queue)

/-- The record serialised by `track_event` (the fields of its
`json.dumps` call; `user_id` and `product_id` default to `None`). -/
structure AnalyticsEvent where
  etype : String
  user_id : Option String
  product_id : Option String
  timestamp : Nat

/-- Embeds `track_event(event_type, user_id, product_id)` of
src/real_world_example.py lines 165-175 acting on the
`analytics:events` list: build the event, `lpush` it, then `ltrim` to
indices 0-9999. -/
def track_event (events : List AnalyticsEvent) (event_type : String)
    (user_id product_id : Option String) (timestamp : Nat) :
    List AnalyticsEvent :=
  ltrim 0 9999 (lpush ⟨event_type, user_id, product_id, timestamp⟩ events)

/-- The state `check_rate_limit` touches: the `rate_limit:{ip}` counter
(`none` when the key is absent) and its pending expiry (`none` when no
TTL is set). -/
structure RateState where
  counter : Option Nat
  ttl : Option Nat
deriving DecidableEq

/-- Modelled from the spec: `INCR` on an absent key creates it at 1,
otherwise adds 1; it returns the post-increment value. -/
def incr (c : Option Nat) : Nat :=
  match c with
  | none => 1
  | some n => n + 1

/-- Embeds `check_rate_limit(ip_address, max_requests, window)` of
src/real_world_example.py lines 94-105: `INCR` the counter, set the
window expiry when the result is 1, and reject when the result exceeds
`max_requests`.  Returns the `(allowed, message)` pair and the new
state. -/
def check_rate_limit (st : RateState) (max_requests window : Nat) :
    (Bool × String) × RateState :=
  let current := incr st.counter
  let st1 : RateState :=
    { counter := some current
      ttl := if current = 1 then some window else st.ttl }
  if current > max_requests then
    ((false, "Rate limit exceeded: " ++ toString current ++ "/" ++
        toString max_requests), st1)
  else
    ((true, "OK: " ++ toString current ++ "/" ++ toString max_requests), st1)

/-- The state `reserve_stock` touches for one product: the `stock` field
of the `product:{product_id}` hash (`none` when the field is absent; all
writers keep it an integer) and whether the `lock:stock:{product_id}`
key is present. -/
structure StockState where
  stock : Option Int
  lockHeld : Bool
deriving DecidableEq

/-- Embeds `check_stock(product_id)` of src/real_world_example.py lines
128-131: `HGET` the `stock` field and convert, `0` when the field is
absent. -/
def check_stock (stock : Option Int) : Int :=
  match stock with
  | some v => v
  | none => 0

/-- Embeds `reserve_stock(product_id, quantity)` of
src/real_world_example.py lines 133-146.  `SET lock_key "locked" nx=True
ex=5` succeeds exactly when the lock key is absent; on success the
critical section reads the stock, decrements it by `quantity` via
`HINCRBY` when it is at least `quantity`, and the `finally` block
deletes the lock key on both paths; when the lock is held by someone
else the method returns `False` at once. -/
def reserve_stock (st : StockState) (quantity : Int) : Bool × StockState :=
  if st.lockHeld = false then
    let current := check_stock st.stock
    if current ≥ quantity then
      (true, { stock := some (current - quantity), lockHeld := false })
    else
      (false, { stock := st.stock, lockHeld := false })
  else
    (false, st)

/-! ## Hash-record store (hset with a mapping / hgetall)

Modelled from the spec: the demos write a hash record with
`rc.hset(key, mapping=...)` and read it back with `rc.hgetall(key)`
(src/demo.py lines 73-81, src/real_world_example.py lines 33-47); the
store semantics belong to the external client.  `HSET` upserts each
mapping field into the key's hash, creating the hash when the key is
absent; `HGETALL` returns all fields of the hash, empty when the key is
absent. -/

/-- A hash record: association list of field-value pairs in insertion
order. -/
abbrev HashRecord := List (String × String)

/-- The keyed store: association list from keys to hash records. -/
abbrev HashStore := List (String × HashRecord)

/-- Set one field of a hash: replace its value in place when the field
exists, append the pair otherwise. -/
def hash_set_field (h : HashRecord) (f v : String) : HashRecord :=
  match h with
  | [] => [(f, v)]
  | (f0, v0) :: rest =>
    if f0 = f then (f, v) :: rest else (f0, v0) :: hash_set_field rest f v

/-- Apply a mapping to a hash, field by field in order (the semantics of
`HSET key mapping`). -/
def hash_set_mapping (h : HashRecord) (m : List (String × String)) :
    HashRecord :=
  m.foldl (fun acc fv => hash_set_field acc fv.1 fv.2) h

/-- The record stored at a key, `none` when the key is absent. -/
def store_lookup : HashStore → String → Option HashRecord
  | [], _ => none
  | (k0, h0) :: rest, k => if k0 = k then some h0 else store_lookup rest k

/-- Replace the record at a key, appending a new entry when the key is
absent. -/
def store_set : HashStore → String → HashRecord → HashStore
  | [], k, h => [(k, h)]
  | (k0, h0) :: rest, k, h =>
    if k0 = k then (k, h) :: rest else (k0, h0) :: store_set rest k h

/-- Modelled from the spec: `rc.hset(key, mapping=m)` — upsert every
field of `m` into the hash at `key` (starting from the empty hash when
the key is absent). -/
def hset (st : HashStore) (key : String) (m : List (String × String)) :
    HashStore :=
  store_set st key (hash_set_mapping ((store_lookup st key).getD []) m)

/-- Modelled from the spec: `rc.hgetall(key)` — all fields of the hash
at `key`, empty when the key is absent. -/
def hgetall (st : HashStore) (key : String) : HashRecord :=
  (store_lookup st key).getD []

/-! ## Helper lemmas -/

/-- Case analysis of the static slot-to-master table: every slot falls
in exactly one of the three branches. -/
theorem master_label_cases (s : Nat) :
    (s ≤ 5460 ∧ get_master_for_slot s = ("Master 1 (redis-node-1)", "172.28.0.2")) ∨
    ((5461 ≤ s ∧ s ≤ 10922) ∧
      get_master_for_slot s = ("Master 2 (redis-node-2)", "172.28.0.3")) ∨
    (10923 ≤ s ∧ get_master_for_slot s = ("Master 3 (redis-node-3)", "172.28.0.4")) := by
  unfold get_master_for_slot
  by_cases h1 : s ≤ 5460
  · exact Or.inl ⟨h1, if_pos h1⟩
  · by_cases h2 : s ≤ 10922
    · refine Or.inr (Or.inl ⟨⟨by omega, h2⟩, ?_⟩)
      rw [if_neg h1, if_pos h2]
    · refine Or.inr (Or.inr ⟨by omega, ?_⟩)
      rw [if_neg h1, if_neg h2]

/-! ## Claims -/

/-- C1: for every slot `s` in `[0, 16383]`, `get_master_for_slot s`
returns (totally, hence "without error") the Master 1 / redis-node-1
label on `[0, 5460]`, the Master 2 / redis-node-2 label on
`[5461, 10922]` and the Master 3 / redis-node-3 label on
`[10923, 16383]`. -/
theorem c1_slot_owner_table (s : Nat) (hs : s ≤ 16383) :
    (s ≤ 5460 → (get_master_for_slot s).1 = "Master 1 (redis-node-1)") ∧
    (5461 ≤ s ∧ s ≤ 10922 →
      (get_master_for_slot s).1 = "Master 2 (redis-node-2)") ∧
    (10923 ≤ s ∧ s ≤ 16383 →
      (get_master_for_slot s).1 = "Master 3 (redis-node-3)") := by
  rcases master_label_cases s with ⟨h, e⟩ | ⟨⟨ha, hb⟩, e⟩ | ⟨h, e⟩ <;>
    rw [e] <;>
    refine ⟨fun hx => ?_, fun hx => ?_, fun hx => ?_⟩ <;>
    first
      | rfl
      | omega

/-- C1 witness: the table evaluated at one slot of each range. -/
theorem c1_slot_owner_table_witness :
    (get_master_for_slot 0).1 = "Master 1 (redis-node-1)" ∧
    (get_master_for_slot 5461).1 = "Master 2 (redis-node-2)" ∧
    (get_master_for_slot 10923).1 = "Master 3 (redis-node-3)" :=
  ⟨(c1_slot_owner_table 0 (by decide)).1 (by decide),
   (c1_slot_owner_table 5461 (by decide)).2.1 (by decide),
   (c1_slot_owner_table 10923 (by decide)).2.2 (by decide)⟩

/-- C2: two keys whose (non-empty, brace-delimited) hash tags are the
same substring are assigned the same slot by `cluster_keyslot`. -/
theorem c2_shared_hash_tag_same_slot (k1 k2 : String) (t : List Char)
    (h1 : hash_tag k1.toList = some t) (h2 : hash_tag k2.toList = some t) :
    cluster_keyslot k1 = cluster_keyslot k2 := by
  unfold cluster_keyslot
  rw [h1, h2]

/-- C2 witness: the keys of src/verify_hash_tags.py lines 59-60 share
the tag `category:electronics`, so their slots agree. -/
theorem c2_shared_hash_tag_same_slot_witness :
    cluster_keyslot "\x7bcategory:electronics\x7d" =
      cluster_keyslot "\x7bcategory:electronics\x7d:products" :=
  c2_shared_hash_tag_same_slot _ _ "category:electronics".toList
    (by decide) (by decide)

/-- C3 counterexample: the three ranges do NOT all contain the same
number of slots — the middle range `[5461, 10922]` holds 5462 slots,
the other two 5461 each (as src/cluster_distribution_demo.py lines
60-62 itself prints). -/
theorem c3_equal_ranges_counterexample :
    ¬(slot_range_size 0 5460 = slot_range_size 5461 10922 ∧
      slot_range_size 5461 10922 = slot_range_size 10923 16383) := by
  decide

/-- C3 (amended): the three ranges used by the code are exactly the
fibers of the three master labels, they cover the 16384-slot space, and
their sizes are 5461, 5462 and 5461 — equal only up to one slot. -/
theorem c3_partition_near_equal (s : Nat) (hs : s ≤ 16383) :
    ((get_master_for_slot s).1 = "Master 1 (redis-node-1)" ↔ s ≤ 5460) ∧
    ((get_master_for_slot s).1 = "Master 2 (redis-node-2)" ↔
      5461 ≤ s ∧ s ≤ 10922) ∧
    ((get_master_for_slot s).1 = "Master 3 (redis-node-3)" ↔ 10923 ≤ s) ∧
    slot_range_size 0 5460 = 5461 ∧
    slot_range_size 5461 10922 = 5462 ∧
    slot_range_size 10923 16383 = 5461 ∧
    slot_range_size 0 5460 + slot_range_size 5461 10922 +
      slot_range_size 10923 16383 = 16384 := by
  refine ⟨?_, ?_, ?_, rfl, rfl, rfl, rfl⟩ <;>
    rcases master_label_cases s with ⟨h, e⟩ | ⟨⟨ha, hb⟩, e⟩ | ⟨h, e⟩ <;>
    rw [e] <;>
    constructor <;>
    intro hx <;>
    first
      | rfl
      | omega
      | exact absurd hx (by decide)

/-- C3 witness: the amended statement evaluated at slot 5461. -/
theorem c3_partition_near_equal_witness :
    (get_master_for_slot 5461).1 = "Master 2 (redis-node-2)" ∧
    slot_range_size 5461 10922 = 5462 :=
  ⟨((c3_partition_near_equal 5461 (by decide)).2.1).mpr (by decide),
   (c3_partition_near_equal 5461 (by decide)).2.2.2.2.1⟩

/-- C4: `reserve_stock` follows acquire / critical section /
unconditional release — the lock key's state is restored on every path
(acquired implies deleted before return); it returns `True` exactly when
the lock was acquired (the key was free) and the stock is at least
`quantity`, in which case the stock read by `check_stock` drops by
exactly `quantity`; on `False` the stock field is untouched. -/
theorem c4_reserve_stock_contract (st : StockState) (q : Int) :
    (reserve_stock st q).2.lockHeld = st.lockHeld ∧
    ((reserve_stock st q).1 = true ↔
      st.lockHeld = false ∧ q ≤ check_stock st.stock) ∧
    ((reserve_stock st q).1 = true →
      check_stock (reserve_stock st q).2.stock = check_stock st.stock - q) ∧
    ((reserve_stock st q).1 = false →
      (reserve_stock st q).2.stock = st.stock) := by
  rcases st with ⟨stock, lock⟩
  cases lock with
  | false =>
    by_cases h : q ≤ check_stock stock
    · have e : reserve_stock ⟨stock, false⟩ q =
          (true, ⟨some (check_stock stock - q), false⟩) := by
        simp [reserve_stock, h]
      rw [e]
      refine ⟨rfl, by simp [h], fun _ => rfl, fun hb => by simp at hb⟩
    · have e : reserve_stock ⟨stock, false⟩ q = (false, ⟨stock, false⟩) := by
        simp [reserve_stock, h]
      rw [e]
      simp [h]
  | true => simp [reserve_stock]

/-- C4 witness: reserving 2 of 50 units succeeds and leaves 48. -/
theorem c4_reserve_stock_contract_witness :
    check_stock (reserve_stock ⟨some 50, false⟩ 2).2.stock =
      check_stock (some 50) - 2 :=
  (c4_reserve_stock_contract ⟨some 50, false⟩ 2).2.2.1 (by decide)

/-- C5: when the connection attempt fails, each of the three script
entry points reports the failure on the console, that report is the last
event of the run (early termination), and no cluster operation at all is
issued. -/
theorem c5_connection_failure_early_return (e : String)
    (b1 b2 b3 : List ScriptEvent) :
    (cluster_op_count (verify_hash_tags_main (Except.error e) b1) = 0 ∧
      (verify_hash_tags_main (Except.error e) b1).getLast? =
        some (ScriptEvent.consoleLine ("❌ Connection failed: " ++ e))) ∧
    (cluster_op_count (clear_all_keys (Except.error e) b2) = 0 ∧
      (clear_all_keys (Except.error e) b2).getLast? =
        some (ScriptEvent.consoleLine ("❌ Connection failed: " ++ e))) ∧
    (cluster_op_count (category_products_main (Except.error e) b3) = 0 ∧
      (category_products_main (Except.error e) b3).getLast? =
        some (ScriptEvent.consoleLine ("❌ Connection failed: " ++ e))) := by
  refine ⟨⟨?_, rfl⟩, ⟨?_, rfl⟩, ⟨?_, rfl⟩⟩ <;>
    rfl

/-- C7: computing a key's slot any number of times yields the same
integer on every computation. -/
theorem c7_keyslot_idempotent (key : String) (n : Nat) (x : Nat)
    (hx : x ∈ repeated_keyslots key n) : x = cluster_keyslot key := by
  simp only [repeated_keyslots, List.mem_map] at hx
  obtain ⟨i, _, h⟩ := hx
  exact h.symm

set_option maxRecDepth 8192 in
/-- C7 witness: three computations for the consistency-test key
`product:00123` all yield slot 8782. -/
theorem c7_keyslot_idempotent_witness :
    (8782 : Nat) = cluster_keyslot "product:00123" :=
  c7_keyslot_idempotent "product:00123" 3 8782 (by decide)

/-- C9: each trimmed collection is capped right after insertion — at
most 50 recently-viewed entries, 100 notifications, 10000 analytics
events, whatever the prior list was. -/
theorem c9_collections_capped (views : List String) (pid : String)
    (queue : List NotificationMsg) (nt msg ts : String)
    (events : List AnalyticsEvent) (ety : String)
    (uid pidOpt : Option String) (time : Nat) :
    (track_product_view views pid).length ≤ 50 ∧
    (add_notification queue nt msg ts).length ≤ 100 ∧
    (track_event events ety uid pidOpt time).length ≤ 10000 := by
  refine ⟨?_, ?_, ?_⟩ <;>
    simp [track_product_view, add_notification, track_event, ltrim, lpush,
      List.length_take]

/-- C10: `check_rate_limit` increments the counter on every call
(rejected ones included), rejects exactly when the post-increment value
exceeds `max_requests`, and sets the window expiry exactly when the
post-increment value is 1. -/
theorem c10_rate_limit_contract (st : RateState)
    (max_requests window : Nat) :
    (check_rate_limit st max_requests window).2.counter =
      some (incr st.counter) ∧
    ((check_rate_limit st max_requests window).1.1 = false ↔
      incr st.counter > max_requests) ∧
    (check_rate_limit st max_requests window).2.ttl =
      (if incr st.counter = 1 then some window else st.ttl) := by
  unfold check_rate_limit
  by_cases h : incr st.counter > max_requests <;> simp [h]

/-- C10 witness: at counter 100 and limit 100 the call increments to 101
and is rejected. -/
theorem c10_rate_limit_contract_witness :
    (check_rate_limit ⟨some 100, none⟩ 100 60).2.counter = some 101 :=
  (c10_rate_limit_contract ⟨some 100, none⟩ 100 60).1

/-- Setting a fresh field appends it to the record. -/
theorem hash_set_field_append (h : HashRecord) (f v : String)
    (hf : f ∉ h.map Prod.fst) : hash_set_field h f v = h ++ [(f, v)] := by
  induction h with
  | nil => rfl
  | cons p rest ih =>
    obtain ⟨f0, v0⟩ := p
    simp only [List.map_cons, List.mem_cons] at hf
    push_neg at hf
    simp [hash_set_field, Ne.symm hf.1, ih hf.2]

/-- Applying a mapping of fresh, pairwise-distinct fields appends the
mapping to the record. -/
theorem hash_set_mapping_append (m : List (String × String)) (h : HashRecord)
    (hd : ∀ f ∈ m.map Prod.fst, f ∉ h.map Prod.fst)
    (hnd : (m.map Prod.fst).Nodup) :
    hash_set_mapping h m = h ++ m := by
  induction m generalizing h with
  | nil => simp [hash_set_mapping]
  | cons p rest ih =>
    obtain ⟨f, v⟩ := p
    simp only [List.map_cons, List.nodup_cons] at hnd
    have hf : f ∉ h.map Prod.fst := hd f (by simp)
    have step : hash_set_mapping h ((f, v) :: rest) =
        hash_set_mapping (h ++ [(f, v)]) rest := by
      simp [hash_set_mapping, hash_set_field_append h f v hf]
    rw [step, ih (h ++ [(f, v)]) ?_ hnd.2]
    · simp
    · intro g hg
      simp only [List.map_append, List.mem_append, List.map_cons,
        List.map_nil, List.mem_singleton]
      push_neg
      refine ⟨hd g (by simp [hg]), ?_⟩
      intro hgf
      exact hnd.1 (hgf ▸ hg)

/-- Writing a record at a key makes it the record read back at that
key. -/
theorem store_lookup_store_set (st : HashStore) (k : String)
    (h : HashRecord) : store_lookup (store_set st k h) k = some h := by
  induction st with
  | nil => simp [store_set, store_lookup]
  | cons p rest ih =>
    obtain ⟨k0, h0⟩ := p
    by_cases hk : k0 = k
    · simp [store_set, store_lookup, hk]
    · simp [store_set, store_lookup, hk, ih]

/-- C6: writing a fresh hash record of `N` distinct fields with
`hset(key, mapping)` and reading it back with `hgetall(key)` yields
exactly the same `N` fields with the same values. -/
theorem c6_hash_record_roundtrip (st : HashStore) (key : String)
    (m : List (String × String)) (hfresh : hgetall st key = [])
    (hnd : (m.map Prod.fst).Nodup) :
    hgetall (hset st key m) key = m ∧
    (hgetall (hset st key m) key).length = m.length := by
  have base : hgetall (hset st key m) key =
      hash_set_mapping ((store_lookup st key).getD []) m := by
    simp [hset, hgetall, store_lookup_store_set]
  have h0 : (store_lookup st key).getD [] = ([] : HashRecord) := hfresh
  rw [base, h0, hash_set_mapping_append m [] (by simp) hnd]
  simp

/-- C6 witness: the four-field record of src/demo.py lines 73-81 written
to an empty store reads back unchanged. -/
theorem c6_hash_record_roundtrip_witness :
    hgetall
      (hset [] "product:1001"
        [("name", "Redis Cluster Guide"), ("price", "29.99"),
         ("category", "Books"), ("stock", "150")]) "product:1001" =
      [("name", "Redis Cluster Guide"), ("price", "29.99"),
       ("category", "Books"), ("stock", "150")] :=
  (c6_hash_record_roundtrip [] "product:1001"
    [("name", "Redis Cluster Guide"), ("price", "29.99"),
     ("category", "Books"), ("stock", "150")] rfl (by decide)).1

/-- A hit of the node loop comes from a master whose first slot range
contains the slot, with that node's host and port. -/
theorem find_master_by_first_range_some (slot : Nat)
    (nodes : List NodeInfo) (h : String) (p : Nat)
    (hf : find_master_by_first_range slot nodes = some (h, p)) :
    ∃ n ∈ nodes, n.master = none ∧ n.host = h ∧ n.port = p ∧
      ∃ r ∈ n.slots.take 1, r.1 ≤ slot ∧ slot ≤ r.2 := by
  induction nodes with
  | nil => simp [find_master_by_first_range] at hf
  | cons n rest ih =>
    rw [find_master_by_first_range] at hf
    by_cases hm : n.master = none
    · rw [if_pos hm] at hf
      rcases hs : n.slots with _ | ⟨⟨s, e⟩, tl⟩
      · rw [hs] at hf
        dsimp only at hf
        obtain ⟨n', hn', hrec⟩ := ih hf
        exact ⟨n', List.mem_cons_of_mem n hn', hrec⟩
      · rw [hs] at hf
        dsimp only at hf
        by_cases hin : s ≤ slot ∧ slot ≤ e
        · rw [if_pos hin] at hf
          obtain ⟨hh, hp⟩ := Prod.mk.injEq .. ▸ Option.some.injEq .. ▸ hf
          exact ⟨n, List.mem_cons_self n rest,
            hm, hh, hp, ⟨s, e⟩, by simp [hs], hin.1, hin.2⟩
        · rw [if_neg hin] at hf
          obtain ⟨n', hn', hrec⟩ := ih hf
          exact ⟨n', List.mem_cons_of_mem n hn', hrec⟩
    · rw [if_neg hm] at hf
      obtain ⟨n', hn', hrec⟩ := ih hf
      exact ⟨n', List.mem_cons_of_mem n hn', hrec⟩

/-- When no master's first slot range contains the slot the node loop
falls through. -/
theorem find_master_by_first_range_none (slot : Nat)
    (nodes : List NodeInfo)
    (hmiss : ∀ n ∈ nodes, n.master = none →
      ∀ r ∈ n.slots.take 1, ¬(r.1 ≤ slot ∧ slot ≤ r.2)) :
    find_master_by_first_range slot nodes = none := by
  induction nodes with
  | nil => rfl
  | cons n rest ih =>
    have hrest : find_master_by_first_range slot rest = none :=
      ih fun n' hn' => hmiss n' (List.mem_cons_of_mem n hn')
    rw [find_master_by_first_range]
    by_cases hm : n.master = none
    · rw [if_pos hm]
      rcases hs : n.slots with _ | ⟨⟨s, e⟩, tl⟩
      · exact hrest
      · have hni : ¬(s ≤ slot ∧ slot ≤ e) :=
          hmiss n (List.mem_cons_self n rest) hm ⟨s, e⟩ (by simp [hs])
        dsimp only
        rw [if_neg hni]
        exact hrest
    · rw [if_neg hm]
      exact hrest

/-- C8: `get_node_for_key` consults only `slots[0]` of each master — it
returns a host and port only when the key's slot lies in that master's
first listed range, and returns no node whenever no master's first range
contains the slot, even when a later range of some master does. -/
theorem c8_first_range_only (key : String) (nodes : List NodeInfo) :
    (∀ h p, (get_node_for_key key nodes).1 = some (h, p) →
      ∃ n ∈ nodes, n.master = none ∧ n.host = h ∧ n.port = p ∧
        ∃ r ∈ n.slots.take 1,
          r.1 ≤ (get_node_for_key key nodes).2 ∧
          (get_node_for_key key nodes).2 ≤ r.2) ∧
    ((∀ n ∈ nodes, n.master = none →
        ∀ r ∈ n.slots.take 1,
          ¬(r.1 ≤ cluster_keyslot key ∧ cluster_keyslot key ≤ r.2)) →
      (get_node_for_key key nodes).1 = none) :=
  ⟨fun h p hf => find_master_by_first_range_some (cluster_keyslot key)
      nodes h p hf,
   fun hmiss => find_master_by_first_range_none (cluster_keyslot key)
      nodes hmiss⟩

set_option maxRecDepth 4096 in
/-- C8 witness: a master owning the key's slot only through its second
slot range `(0, 16383)` is not found, because its first range `(0, 0)`
misses the slot. -/
theorem c8_first_range_only_witness :
    (get_node_for_key "x"
      [⟨none, [(0, 0), (0, 16383)], "172.28.0.2", 6379⟩]).1 = none :=
  (c8_first_range_only "x"
    [⟨none, [(0, 0), (0, 16383)], "172.28.0.2", 6379⟩]).2 (by decide)

end RedisDemo
